import Mathlib

/-!
# lnd-example: the bootstrap sequence of `main` (src/main.go)

`main` is a straight-line sequence of calls into external libraries (go-flags,
grpc credentials, os, macaroon, grpc, lnrpc), each followed by a
`log.Fatal`/`log.Fatalf` on error.  The embedding passes an explicit trace of
observable events through that sequence.  What the external calls return is
given by a `World`: one function per library call, so that what a later call
returns may depend on what the earlier ones produced.
-/

namespace LndExample

/-! ## Data model -/

/-- CLI parameters: `type config struct` (main.go, lines 22-27). -/
structure config where
  TLSPath : String
  MacaroonPath : String
  RpcServer : String
  EnableGrpcLog : Bool
  deriving DecidableEq, Repr

/-- Value of `credentials.TransportCredentials`, as returned by
`credentials.NewClientTLSFromFile`; the library owns its contents. -/
structure TransportCredentials where
  id : Nat
  deriving DecidableEq, Repr

/-- Value of `macaroon.Macaroon`, as filled in by `UnmarshalBinary`. -/
structure Macaroon where
  id : Nat
  deriving DecidableEq, Repr

/-- The adapter `macaroons.MacaroonCredential{Macaroon: &mac}` (line 82). -/
structure MacaroonCredential where
  Macaroon : Macaroon
  deriving DecidableEq, Repr

/-- Value of `*grpc.ClientConn`, as returned by `grpc.DialContext`. -/
structure ClientConn where
  id : Nat
  deriving DecidableEq, Repr

/-- Value of `*lnrpc.GetInfoResponse`; `String` is what `info.String()` gives. -/
structure GetInfoResponse where
  String : String
  deriving DecidableEq, Repr

/-- Values of `context.Context` that the program can build: the background
context and contexts derived from a parent with a timeout (in nanoseconds). -/
inductive Context where
  | Background
  | WithTimeout (parent : Context) (timeout : Nat)
  deriving DecidableEq, Repr

/-- A context carries a deadline when it, or an ancestor, was made by
`context.WithTimeout`. -/
def Context.hasDeadline : Context → Bool
  | .Background => false
  | .WithTimeout _ _ => true

/-- Value of `time.Second`, in nanoseconds (Go's `time.Duration` unit). -/
def Second : Nat := 1000000000

/-- The `grpc.DialOption` values passed on lines 67-82. -/
inductive DialOption where
  | WithReturnConnectionError
  | FailOnNonTempDialError (f : Bool)
  | WithBlock
  | WithTransportCredentials (creds : TransportCredentials)
  | WithPerRPCCredentials (creds : MacaroonCredential)
  deriving DecidableEq, Repr

/-- The `io.Writer` values used by `enableGrpcLogger`. -/
inductive Writer where
  | Discard
  | Stderr
  deriving DecidableEq, Repr

deriving instance DecidableEq for Except

/-- Observable events of a run.  A call into an external library is recorded
together with what it returned.  `Close` and `WriteFile` belong to the
vocabulary of effects (closing a connection, writing a file). -/
inductive Event where
  /-- One line written by the standard logger (`log.Println`, `log.Printf`,
  and the printing half of `log.Fatal`, `log.Fatalf`). -/
  | Log (msg : String)
  /-- The call `context.WithTimeout` returned `ctx`. -/
  | WithTimeout (ctx : Context)
  | Parse (args : List String) (res : Except String config)
  | SetLoggerV2 (info warn err : Writer)
  | NewClientTLSFromFile (certFile serverNameOverride : String)
      (res : Except String TransportCredentials)
  | ReadFile (name : String) (res : Except String (List Nat))
  | UnmarshalBinary (data : List Nat) (res : Except String Macaroon)
  | DialContext (ctx : Context) (target : String) (opts : List DialOption)
      (res : Except String ClientConn)
  | NewLightningClient (conn : ClientConn)
  | GetInfo (ctx : Context) (conn : ClientConn) (res : Except String GetInfoResponse)
  /-- The `cancel` function returned by `context.WithTimeout` is called. -/
  | cancel (ctx : Context)
  /-- The call `conn.Close()`. -/
  | Close (conn : ClientConn)
  /-- A file is written. -/
  | WriteFile (name : String)
  /-- The process ends with this status. -/
  | Exit (code : Nat)
  deriving DecidableEq

/-- What the external libraries return.  Errors are given by their text
(`err.Error()`). -/
structure World where
  /-- Command-line arguments, `os.Args[1:]`. -/
  args : List String
  /-- What `flags.Parse(&conf)` gives: the filled-in `conf`, or an error. -/
  Parse : List String → Except String config
  /-- What `credentials.NewClientTLSFromFile(certFile, serverNameOverride)` gives. -/
  NewClientTLSFromFile : String → String → Except String TransportCredentials
  /-- What `os.ReadFile(name)` gives: the bytes of the file, or an error. -/
  ReadFile : String → Except String (List Nat)
  /-- What `mac.UnmarshalBinary(data)` gives. -/
  UnmarshalBinary : List Nat → Except String Macaroon
  /-- What `grpc.DialContext(ctx, target, opts...)` gives. -/
  DialContext : Context → String → List DialOption → Except String ClientConn
  /-- What `lnd.GetInfo(ctx, &lnrpc.GetInfoRequest{})` gives on the client of `conn`. -/
  GetInfo : Context → ClientConn → Except String GetInfoResponse
  /-- Rendering of `time.Since(start)` on line 88. -/
  Since : String

/-- Outcome of a run: the events in order, and the exit status. -/
structure Run where
  trace : List Event
  exitCode : Nat

/-! ## Operations -/

/-- Expansion of the `%s` verbs of a format, each taking the next operand;
every other character is copied. -/
def Sprintf.go : List Char → List String → List Char
  | [], _ => []
  | '%' :: 's' :: rest, a :: args => a.data ++ Sprintf.go rest args
  | c :: rest, args => c :: Sprintf.go rest args

/-- Model of `fmt.Sprintf` for formats whose verbs are all `%s`. -/
def Sprintf (format : String) (args : List String) : String :=
  ⟨Sprintf.go format.data args⟩

/-- Model of `log.Fatal(v)`: the standard logger prints `v`, then `os.Exit(1)` ends the
process; `os.Exit` does not run deferred functions. -/
def Fatal (t : List Event) (v : String) : Run :=
  ⟨t ++ [Event.Log v, Event.Exit 1], 1⟩

/-- Model of `log.Fatalf(format, v...)`: as `log.Fatal` on `fmt.Sprintf(format, v...)`. -/
def Fatalf (t : List Event) (format : String) (v : List String) : Run :=
  ⟨t ++ [Event.Log (Sprintf format v), Event.Exit 1], 1⟩

/-- The function `enableGrpcLogger` (lines 103-110): installs a global gRPC logger
with `info = io.Discard`, `warn = os.Stderr`, `err = os.Stderr`. -/
def enableGrpcLogger (t : List Event) : List Event :=
  t ++ [Event.SetLoggerV2 Writer.Discard Writer.Stderr Writer.Stderr]

/-- The function `main` (lines 29-97).  `t` is the trace so far; `deferred` holds the
calls registered with `defer`, run when `main` returns (and only then). -/
def main (w : World) : Run :=
  let t := [Event.Log "lnd-example: starting"]
  let ctx := Context.WithTimeout Context.Background (Second * 10)
  let t := t ++ [Event.WithTimeout ctx]
  let deferred := [Event.cancel ctx]
  let t := t ++ [Event.Parse w.args (w.Parse w.args)]
  match w.Parse w.args with
  | .error err => Fatal t err
  | .ok conf =>
  let t := if conf.EnableGrpcLog then enableGrpcLogger t else t
  let t := t ++ [Event.NewClientTLSFromFile conf.TLSPath ""
    (w.NewClientTLSFromFile conf.TLSPath "")]
  match w.NewClientTLSFromFile conf.TLSPath "" with
  | .error err => Fatalf t "could not read TLS cert: %s" [err]
  | .ok cert =>
  let t := t ++ [Event.ReadFile conf.MacaroonPath (w.ReadFile conf.MacaroonPath)]
  match w.ReadFile conf.MacaroonPath with
  | .error err => Fatalf t "could not read macaroon: %s" [err]
  | .ok macBytes =>
  let t := t ++ [Event.UnmarshalBinary macBytes (w.UnmarshalBinary macBytes)]
  match w.UnmarshalBinary macBytes with
  | .error err => Fatalf t "could not read macaroon bytes into struct: %s" [err]
  | .ok mac =>
  let opts := [
    DialOption.WithReturnConnectionError,
    DialOption.FailOnNonTempDialError true,
    DialOption.WithBlock,
    DialOption.WithTransportCredentials cert,
    DialOption.WithPerRPCCredentials { Macaroon := mac }]
  let t := t ++ [Event.DialContext ctx conf.RpcServer opts
    (w.DialContext ctx conf.RpcServer opts)]
  match w.DialContext ctx conf.RpcServer opts with
  | .error err => Fatalf t "could not dial to LND: %s" [err]
  | .ok conn =>
  let t := t ++ [Event.Log (Sprintf "dialed to LND\tduration=%s" [w.Since])]
  let t := t ++ [Event.NewLightningClient conn]
  let t := t ++ [Event.GetInfo ctx conn (w.GetInfo ctx conn)]
  match w.GetInfo ctx conn with
  | .error err => Fatalf t "could not get info: %s" [err]
  | .ok info =>
  let t := t ++ [Event.Log (Sprintf "LND info: %s" [info.String])]
  ⟨t ++ deferred ++ [Event.Exit 0], 0⟩

/-! ## Classification of events -/

/-- The fallible steps of `main`, in program order. -/
inductive Step where
  | Parse
  | NewClientTLSFromFile
  | ReadFile
  | UnmarshalBinary
  | DialContext
  | GetInfo
  deriving DecidableEq, Repr

/-- The step an event is a call of, if it is one. -/
def Event.step : Event → Option Step
  | .Parse _ _ => some Step.Parse
  | .NewClientTLSFromFile _ _ _ => some Step.NewClientTLSFromFile
  | .ReadFile _ _ => some Step.ReadFile
  | .UnmarshalBinary _ _ => some Step.UnmarshalBinary
  | .DialContext _ _ _ _ => some Step.DialContext
  | .GetInfo _ _ _ => some Step.GetInfo
  | _ => none

/-- The error text of a result, if it is an error. -/
def errorOf {α : Type} : Except String α → Option String
  | .error e => some e
  | .ok _ => none

/-- The error a call returned, if the event is a call that returned one. -/
def Event.error : Event → Option String
  | .Parse _ r => errorOf r
  | .NewClientTLSFromFile _ _ r => errorOf r
  | .ReadFile _ r => errorOf r
  | .UnmarshalBinary _ r => errorOf r
  | .DialContext _ _ _ r => errorOf r
  | .GetInfo _ _ r => errorOf r
  | _ => none

/-- The event is a call of one of the fallible steps. -/
def Event.isStep (ev : Event) : Bool := ev.step.isSome

/-- The event is a call that returned an error. -/
def Event.isError (ev : Event) : Bool := ev.error.isSome

/-- The event reads the certificate file. -/
def Event.isCertRead : Event → Bool
  | .NewClientTLSFromFile _ _ _ => true
  | _ => false

/-- The event reads a file with `os.ReadFile`. -/
def Event.isReadFile : Event → Bool
  | .ReadFile _ _ => true
  | _ => false

/-- The event reads a local file. -/
def Event.isFileRead (ev : Event) : Bool := ev.isCertRead || ev.isReadFile

def Event.isUnmarshalBinary : Event → Bool
  | .UnmarshalBinary _ _ => true
  | _ => false

def Event.isDialContext : Event → Bool
  | .DialContext _ _ _ _ => true
  | _ => false

def Event.isGetInfo : Event → Bool
  | .GetInfo _ _ _ => true
  | _ => false

def Event.isWithTimeout : Event → Bool
  | .WithTimeout _ => true
  | _ => false

def Event.isWriteFile : Event → Bool
  | .WriteFile _ => true
  | _ => false

def Event.isClose : Event → Bool
  | .Close _ => true
  | _ => false

/-- The context handed to a blocking network operation, if the event is one. -/
def Event.networkContext : Event → Option Context
  | .DialContext ctx _ _ _ => some ctx
  | .GetInfo ctx _ _ => some ctx
  | _ => none

/-! ## Example worlds -/

/-- The configuration given by the flag defaults and `--server localhost:10009`. -/
def exampleConf : config :=
  { TLSPath := "./tls.cert", MacaroonPath := "./admin.macaroon",
    RpcServer := "localhost:10009", EnableGrpcLog := false }

/-- A world in which every step succeeds. -/
def worldOk : World :=
  { args := ["--server", "localhost:10009"]
    Parse := fun _ => .ok exampleConf
    NewClientTLSFromFile := fun _ _ => .ok ⟨1⟩
    ReadFile := fun _ => .ok [2, 1, 0]
    UnmarshalBinary := fun _ => .ok ⟨7⟩
    DialContext := fun _ _ _ => .ok ⟨3⟩
    GetInfo := fun _ _ => .ok ⟨"version:\"0.15.0\""⟩
    Since := "12ms" }

/-- A world in which flag parsing fails (the mandatory `--server` is absent). -/
def worldNoServer : World :=
  { worldOk with
    args := []
    Parse := fun _ => .error "the required flag --server was not specified" }

/-- A world in which the certificate file is missing. -/
def worldNoCert : World :=
  { worldOk with
    NewClientTLSFromFile := fun _ _ => .error "open ./tls.cert: no such file or directory" }

/-- A world in which the macaroon file is missing. -/
def worldNoMacaroon : World :=
  { worldOk with
    ReadFile := fun _ => .error "open ./admin.macaroon: no such file or directory" }

/-- A world in which the macaroon file holds three bytes that are not a
macaroon encoding. -/
def worldBadMacaroon : World :=
  { worldOk with
    ReadFile := fun _ => .ok [1, 2, 3]
    UnmarshalBinary := fun _ =>
      .error "cannot determine data format of binary-encoded macaroon" }

/-- A world in which the server refuses the connection. -/
def worldRefused : World :=
  { worldOk with
    DialContext := fun _ _ _ => .error "connection refused" }

/-! ## Observations on runs -/

/-- The literal text of the format each step's fatal call is given: the text
before `%s` in its `log.Fatalf` (lines 47, 52, 57, 85, 93); flag parsing ends in
`log.Fatal(err)` (line 38), which has no format. -/
def Step.description : Step → String
  | .Parse => ""
  | .NewClientTLSFromFile => "could not read TLS cert: "
  | .ReadFile => "could not read macaroon: "
  | .UnmarshalBinary => "could not read macaroon bytes into struct: "
  | .DialContext => "could not dial to LND: "
  | .GetInfo => "could not get info: "

/-- The fatal message of a run: the line logged right before the exit with
status 1 that ends the trace, if the trace ends so. -/
def fatalMessage (r : Run) : Option String :=
  match r.trace.reverse with
  | Event.Exit 1 :: Event.Log msg :: _ => some msg
  | _ => none

/-- The lines a run logs, in order. -/
def logLines (r : Run) : List String :=
  r.trace.filterMap fun
    | Event.Log msg => some msg
    | _ => none

/-- Connections a trace acquires: those returned by a successful dial. -/
def acquiredConns (t : List Event) : List ClientConn :=
  t.filterMap fun
    | Event.DialContext _ _ _ (.ok conn) => some conn
    | _ => none

/-- Connections a trace closes. -/
def closedConns (t : List Event) : List ClientConn :=
  t.filterMap fun
    | Event.Close conn => some conn
    | _ => none

/-- Timeout contexts a trace creates. -/
def acquiredContexts (t : List Event) : List Context :=
  t.filterMap fun
    | Event.WithTimeout ctx => some ctx
    | _ => none

/-- Contexts whose cancel function a trace calls. -/
def cancelledContexts (t : List Event) : List Context :=
  t.filterMap fun
    | Event.cancel ctx => some ctx
    | _ => none

/-- Every context the trace creates is cancelled in it and every connection it
acquires is closed in it. -/
def allReleased (t : List Event) : Bool :=
  (acquiredContexts t).all (fun ctx => decide (ctx ∈ cancelledContexts t)) &&
  (acquiredConns t).all (fun conn => decide (conn ∈ closedConns t))

/-! ## Shared lemmas -/

/-- The context created on line 33. -/
def mainCtx : Context := Context.WithTimeout Context.Background (Second * 10)

/-- The dial options of lines 67-82. -/
def mainOpts (cert : TransportCredentials) (mac : Macaroon) : List DialOption :=
  [DialOption.WithReturnConnectionError, DialOption.FailOnNonTempDialError true,
   DialOption.WithBlock, DialOption.WithTransportCredentials cert,
   DialOption.WithPerRPCCredentials { Macaroon := mac }]

/-- The events of lines 30-43 once flag parsing has given `conf`. -/
def startEvents (w : World) (conf : config) : List Event :=
  [Event.Log "lnd-example: starting", Event.WithTimeout mainCtx,
   Event.Parse w.args (.ok conf)] ++
  (if conf.EnableGrpcLog then
    [Event.SetLoggerV2 Writer.Discard Writer.Stderr Writer.Stderr] else [])

theorem Sprintf_cert (e : String) :
    Sprintf "could not read TLS cert: %s" [e] = "could not read TLS cert: " ++ e := by
  apply String.ext
  simp [Sprintf, Sprintf.go]

theorem Sprintf_macaroon (e : String) :
    Sprintf "could not read macaroon: %s" [e] = "could not read macaroon: " ++ e := by
  apply String.ext
  simp [Sprintf, Sprintf.go]

theorem Sprintf_unmarshal (e : String) :
    Sprintf "could not read macaroon bytes into struct: %s" [e]
      = "could not read macaroon bytes into struct: " ++ e := by
  apply String.ext
  simp [Sprintf, Sprintf.go]

theorem Sprintf_dial (e : String) :
    Sprintf "could not dial to LND: %s" [e] = "could not dial to LND: " ++ e := by
  apply String.ext
  simp [Sprintf, Sprintf.go]

theorem Sprintf_getInfo (e : String) :
    Sprintf "could not get info: %s" [e] = "could not get info: " ++ e := by
  apply String.ext
  simp [Sprintf, Sprintf.go]

theorem Sprintf_dialed (e : String) :
    Sprintf "dialed to LND\tduration=%s" [e] = "dialed to LND\tduration=" ++ e := by
  apply String.ext
  simp [Sprintf, Sprintf.go]

theorem Sprintf_info (e : String) :
    Sprintf "LND info: %s" [e] = "LND info: " ++ e := by
  apply String.ext
  simp [Sprintf, Sprintf.go]

/-- The seven paths through `main`, each with the run it produces. -/
theorem main_cases (w : World) :
    (∃ e, w.Parse w.args = .error e ∧
      main w = ⟨[Event.Log "lnd-example: starting", Event.WithTimeout mainCtx,
        Event.Parse w.args (.error e), Event.Log e, Event.Exit 1], 1⟩) ∨
    (∃ conf e, w.Parse w.args = .ok conf ∧
      w.NewClientTLSFromFile conf.TLSPath "" = .error e ∧
      main w = ⟨startEvents w conf ++
        [Event.NewClientTLSFromFile conf.TLSPath "" (.error e),
         Event.Log ("could not read TLS cert: " ++ e), Event.Exit 1], 1⟩) ∨
    (∃ conf cert e, w.Parse w.args = .ok conf ∧
      w.NewClientTLSFromFile conf.TLSPath "" = .ok cert ∧
      w.ReadFile conf.MacaroonPath = .error e ∧
      main w = ⟨startEvents w conf ++
        [Event.NewClientTLSFromFile conf.TLSPath "" (.ok cert),
         Event.ReadFile conf.MacaroonPath (.error e),
         Event.Log ("could not read macaroon: " ++ e), Event.Exit 1], 1⟩) ∨
    (∃ conf cert macBytes e, w.Parse w.args = .ok conf ∧
      w.NewClientTLSFromFile conf.TLSPath "" = .ok cert ∧
      w.ReadFile conf.MacaroonPath = .ok macBytes ∧
      w.UnmarshalBinary macBytes = .error e ∧
      main w = ⟨startEvents w conf ++
        [Event.NewClientTLSFromFile conf.TLSPath "" (.ok cert),
         Event.ReadFile conf.MacaroonPath (.ok macBytes),
         Event.UnmarshalBinary macBytes (.error e),
         Event.Log ("could not read macaroon bytes into struct: " ++ e),
         Event.Exit 1], 1⟩) ∨
    (∃ conf cert macBytes mac e, w.Parse w.args = .ok conf ∧
      w.NewClientTLSFromFile conf.TLSPath "" = .ok cert ∧
      w.ReadFile conf.MacaroonPath = .ok macBytes ∧
      w.UnmarshalBinary macBytes = .ok mac ∧
      w.DialContext mainCtx conf.RpcServer (mainOpts cert mac) = .error e ∧
      main w = ⟨startEvents w conf ++
        [Event.NewClientTLSFromFile conf.TLSPath "" (.ok cert),
         Event.ReadFile conf.MacaroonPath (.ok macBytes),
         Event.UnmarshalBinary macBytes (.ok mac),
         Event.DialContext mainCtx conf.RpcServer (mainOpts cert mac) (.error e),
         Event.Log ("could not dial to LND: " ++ e), Event.Exit 1], 1⟩) ∨
    (∃ conf cert macBytes mac conn e, w.Parse w.args = .ok conf ∧
      w.NewClientTLSFromFile conf.TLSPath "" = .ok cert ∧
      w.ReadFile conf.MacaroonPath = .ok macBytes ∧
      w.UnmarshalBinary macBytes = .ok mac ∧
      w.DialContext mainCtx conf.RpcServer (mainOpts cert mac) = .ok conn ∧
      w.GetInfo mainCtx conn = .error e ∧
      main w = ⟨startEvents w conf ++
        [Event.NewClientTLSFromFile conf.TLSPath "" (.ok cert),
         Event.ReadFile conf.MacaroonPath (.ok macBytes),
         Event.UnmarshalBinary macBytes (.ok mac),
         Event.DialContext mainCtx conf.RpcServer (mainOpts cert mac) (.ok conn),
         Event.Log ("dialed to LND\tduration=" ++ w.Since),
         Event.NewLightningClient conn,
         Event.GetInfo mainCtx conn (.error e),
         Event.Log ("could not get info: " ++ e), Event.Exit 1], 1⟩) ∨
    (∃ conf cert macBytes mac conn info, w.Parse w.args = .ok conf ∧
      w.NewClientTLSFromFile conf.TLSPath "" = .ok cert ∧
      w.ReadFile conf.MacaroonPath = .ok macBytes ∧
      w.UnmarshalBinary macBytes = .ok mac ∧
      w.DialContext mainCtx conf.RpcServer (mainOpts cert mac) = .ok conn ∧
      w.GetInfo mainCtx conn = .ok info ∧
      main w = ⟨startEvents w conf ++
        [Event.NewClientTLSFromFile conf.TLSPath "" (.ok cert),
         Event.ReadFile conf.MacaroonPath (.ok macBytes),
         Event.UnmarshalBinary macBytes (.ok mac),
         Event.DialContext mainCtx conf.RpcServer (mainOpts cert mac) (.ok conn),
         Event.Log ("dialed to LND\tduration=" ++ w.Since),
         Event.NewLightningClient conn,
         Event.GetInfo mainCtx conn (.ok info),
         Event.Log ("LND info: " ++ info.String),
         Event.cancel mainCtx, Event.Exit 0], 0⟩) := by
  cases hP : w.Parse w.args with
  | error e =>
    left
    exact ⟨e, rfl, by simp [main, hP, Fatal, mainCtx]⟩
  | ok conf =>
  right
  cases hC : w.NewClientTLSFromFile conf.TLSPath "" with
  | error e =>
    left
    refine ⟨conf, e, rfl, hC, ?_⟩
    cases hG : conf.EnableGrpcLog <;>
      simp [main, hP, hC, hG, Fatalf, Sprintf_cert, startEvents, mainCtx, enableGrpcLogger]
  | ok cert =>
  right
  cases hR : w.ReadFile conf.MacaroonPath with
  | error e =>
    left
    refine ⟨conf, cert, e, rfl, hC, hR, ?_⟩
    cases hG : conf.EnableGrpcLog <;>
      simp [main, hP, hC, hR, hG, Fatalf, Sprintf_macaroon, startEvents, mainCtx,
        enableGrpcLogger]
  | ok macBytes =>
  right
  cases hU : w.UnmarshalBinary macBytes with
  | error e =>
    left
    refine ⟨conf, cert, macBytes, e, rfl, hC, hR, hU, ?_⟩
    cases hG : conf.EnableGrpcLog <;>
      simp [main, hP, hC, hR, hU, hG, Fatalf, Sprintf_unmarshal, startEvents, mainCtx,
        enableGrpcLogger]
  | ok mac =>
  right
  cases hD : w.DialContext mainCtx conf.RpcServer (mainOpts cert mac) with
  | error e =>
    left
    refine ⟨conf, cert, macBytes, mac, e, rfl, hC, hR, hU, hD, ?_⟩
    simp only [mainCtx, mainOpts] at hD
    cases hG : conf.EnableGrpcLog <;>
      simp [main, hP, hC, hR, hU, hD, hG, Fatalf, Sprintf_dial, startEvents, mainCtx,
        mainOpts, enableGrpcLogger]
  | ok conn =>
  right
  cases hI : w.GetInfo mainCtx conn with
  | error e =>
    left
    refine ⟨conf, cert, macBytes, mac, conn, e, rfl, hC, hR, hU, hD, hI, ?_⟩
    simp only [mainCtx, mainOpts] at hD hI
    cases hG : conf.EnableGrpcLog <;>
      simp [main, hP, hC, hR, hU, hD, hI, hG, Fatalf, Sprintf_getInfo, Sprintf_dialed,
        startEvents, mainCtx, mainOpts, enableGrpcLogger]
  | ok info =>
    right
    refine ⟨conf, cert, macBytes, mac, conn, info, rfl, hC, hR, hU, hD, hI, ?_⟩
    simp only [mainCtx, mainOpts] at hD hI
    cases hG : conf.EnableGrpcLog <;>
      simp [main, hP, hC, hR, hU, hD, hI, hG, Sprintf_info, Sprintf_dialed,
        startEvents, mainCtx, mainOpts, enableGrpcLogger]

/-- The start events, without and with the gRPC logger being installed. -/
theorem startEvents_cases (w : World) (conf : config) :
    startEvents w conf = [Event.Log "lnd-example: starting", Event.WithTimeout mainCtx,
      Event.Parse w.args (.ok conf)] ∨
    startEvents w conf = [Event.Log "lnd-example: starting", Event.WithTimeout mainCtx,
      Event.Parse w.args (.ok conf),
      Event.SetLoggerV2 Writer.Discard Writer.Stderr Writer.Stderr] := by
  cases hG : conf.EnableGrpcLog <;> simp [startEvents, hG]

/-- A list with exactly one element satisfying `p` splits at such an element in
one way only. -/
theorem split_unique {α : Type} (p : α → Bool) (x : α) (B : List α)
    (hB : ∀ b ∈ B, p b = false) :
    ∀ (A : List α), (∀ a ∈ A, p a = false) → ∀ (pre post : List α) (ev : α),
      A ++ x :: B = pre ++ ev :: post → p ev = true → pre = A ∧ ev = x ∧ post = B := by
  intro A
  induction A with
  | nil =>
    intro _ pre post ev h hev
    cases pre with
    | nil =>
      simp at h
      exact ⟨rfl, h.1.symm, h.2.symm⟩
    | cons c pre0 =>
      simp at h
      have hmem : ev ∈ B := by rw [h.2]; simp
      rw [hB ev hmem] at hev
      cases hev
  | cons a A0 ih =>
    intro hA pre post ev h hev
    cases pre with
    | nil =>
      simp at h
      rw [← h.1, hA a (by simp)] at hev
      cases hev
    | cons c pre0 =>
      simp at h
      obtain ⟨h1, h2, h3⟩ := ih (fun a0 ha0 => hA a0 (by simp [ha0])) pre0 post ev h.2 hev
      exact ⟨by rw [h.1, h1], h2, h3⟩

/-- A list without an element satisfying `p` does not split at one. -/
theorem no_split {α : Type} (p : α → Bool) (L : List α) (hL : ∀ a ∈ L, p a = false)
    (pre post : List α) (ev : α) (h : L = pre ++ ev :: post) (hev : p ev = true) : False := by
  have hmem : ev ∈ L := by rw [h]; simp
  rw [hL ev hmem] at hev
  cases hev

/-- No start event is a call that returned an error. -/
theorem startEvents_isError (w : World) (conf : config) :
    ∀ ev ∈ startEvents w conf, ev.isError = false := by
  rcases startEvents_cases w conf with hs | hs <;> rw [hs] <;>
    simp [Event.isError, Event.error, errorOf]

/-- A string of length zero is the empty string. -/
theorem eq_empty_of_length_zero (s : String) (h : s.length = 0) : s = "" := by
  cases s with
  | mk d =>
    simp [String.length] at h
    subst h
    rfl

/-- The two ways a run ends: a failing call after calls that all succeeded,
followed by the fatal line made of the step's format text and the error, and
the exit with status 1; or, after calls that all succeeded, the successful
GetInfo call, the line logging its response, the deferred cancel and the exit
with status 0. -/
theorem main_shape (w : World) :
    (∃ A x s e, main w = ⟨A ++ [x, Event.Log (s.description ++ e), Event.Exit 1], 1⟩ ∧
      (∀ a ∈ A, a.isError = false) ∧ x.step = some s ∧ x.error = some e) ∨
    (∃ A conn info, main w = ⟨A ++ [Event.GetInfo mainCtx conn (.ok info),
        Event.Log ("LND info: " ++ info.String), Event.cancel mainCtx, Event.Exit 0], 0⟩ ∧
      (∀ a ∈ A, a.isError = false)) := by
  rcases main_cases w with ⟨e, -, h⟩ | ⟨conf, e, -, -, h⟩ | ⟨conf, cert, e, -, -, -, h⟩ |
    ⟨conf, cert, macBytes, e, -, -, -, -, h⟩ |
    ⟨conf, cert, macBytes, mac, e, -, -, -, -, -, h⟩ |
    ⟨conf, cert, macBytes, mac, conn, e, -, -, -, -, -, -, h⟩ |
    ⟨conf, cert, macBytes, mac, conn, info, -, -, -, -, -, -, h⟩
  · left
    refine ⟨[Event.Log "lnd-example: starting", Event.WithTimeout mainCtx],
      Event.Parse w.args (.error e), Step.Parse, e, ?_, ?_, rfl, rfl⟩
    · rw [h]; simp [Step.description]
    · simp [Event.isError, Event.error]
  · left
    refine ⟨startEvents w conf, Event.NewClientTLSFromFile conf.TLSPath "" (.error e),
      Step.NewClientTLSFromFile, e, ?_, startEvents_isError w conf, rfl, rfl⟩
    rw [h]; simp [Step.description]
  · left
    refine ⟨startEvents w conf ++ [Event.NewClientTLSFromFile conf.TLSPath "" (.ok cert)],
      Event.ReadFile conf.MacaroonPath (.error e), Step.ReadFile, e, ?_, ?_, rfl, rfl⟩
    · rw [h]; simp [Step.description]
    · intro ev hev
      rcases List.mem_append.1 hev with h0 | h0
      · exact startEvents_isError w conf ev h0
      · simp at h0; subst h0; rfl
  · left
    refine ⟨startEvents w conf ++ [Event.NewClientTLSFromFile conf.TLSPath "" (.ok cert),
        Event.ReadFile conf.MacaroonPath (.ok macBytes)],
      Event.UnmarshalBinary macBytes (.error e), Step.UnmarshalBinary, e, ?_, ?_, rfl, rfl⟩
    · rw [h]; simp [Step.description]
    · intro ev hev
      rcases List.mem_append.1 hev with h0 | h0
      · exact startEvents_isError w conf ev h0
      · simp at h0; rcases h0 with h0 | h0 <;> subst h0 <;> rfl
  · left
    refine ⟨startEvents w conf ++ [Event.NewClientTLSFromFile conf.TLSPath "" (.ok cert),
        Event.ReadFile conf.MacaroonPath (.ok macBytes),
        Event.UnmarshalBinary macBytes (.ok mac)],
      Event.DialContext mainCtx conf.RpcServer (mainOpts cert mac) (.error e),
      Step.DialContext, e, ?_, ?_, rfl, rfl⟩
    · rw [h]; simp [Step.description]
    · intro ev hev
      rcases List.mem_append.1 hev with h0 | h0
      · exact startEvents_isError w conf ev h0
      · simp at h0; rcases h0 with h0 | h0 | h0 <;> subst h0 <;> rfl
  · left
    refine ⟨startEvents w conf ++ [Event.NewClientTLSFromFile conf.TLSPath "" (.ok cert),
        Event.ReadFile conf.MacaroonPath (.ok macBytes),
        Event.UnmarshalBinary macBytes (.ok mac),
        Event.DialContext mainCtx conf.RpcServer (mainOpts cert mac) (.ok conn),
        Event.Log ("dialed to LND\tduration=" ++ w.Since),
        Event.NewLightningClient conn],
      Event.GetInfo mainCtx conn (.error e), Step.GetInfo, e, ?_, ?_, rfl, rfl⟩
    · rw [h]; simp [Step.description]
    · intro ev hev
      rcases List.mem_append.1 hev with h0 | h0
      · exact startEvents_isError w conf ev h0
      · simp at h0
        rcases h0 with h0 | h0 | h0 | h0 | h0 | h0 <;> subst h0 <;> rfl
  · right
    refine ⟨startEvents w conf ++ [Event.NewClientTLSFromFile conf.TLSPath "" (.ok cert),
        Event.ReadFile conf.MacaroonPath (.ok macBytes),
        Event.UnmarshalBinary macBytes (.ok mac),
        Event.DialContext mainCtx conf.RpcServer (mainOpts cert mac) (.ok conn),
        Event.Log ("dialed to LND\tduration=" ++ w.Since),
        Event.NewLightningClient conn], conn, info, ?_, ?_⟩
    · rw [h]; simp
    · intro ev hev
      rcases List.mem_append.1 hev with h0 | h0
      · exact startEvents_isError w conf ev h0
      · simp at h0
        rcases h0 with h0 | h0 | h0 | h0 | h0 | h0 <;> subst h0 <;> rfl

/-! ## Claims -/

/-- C1: when flag parsing has given the configuration and
`credentials.NewClientTLSFromFile` on the configured TLS path returns an error,
the run exits with status 1 right after that call (the failed call, the fatal
log line and the exit are the last three events), and no event of the run
reads the macaroon file, deserializes it, dials or calls GetInfo. -/
theorem cert_error_stops_run (w : World) (conf : config) (err : String)
    (hParse : w.Parse w.args = .ok conf)
    (hCert : w.NewClientTLSFromFile conf.TLSPath "" = .error err) :
    (main w).exitCode = 1 ∧
    [Event.NewClientTLSFromFile conf.TLSPath "" (.error err),
      Event.Log ("could not read TLS cert: " ++ err), Event.Exit 1] <:+ (main w).trace ∧
    ∀ ev ∈ (main w).trace, ev.isReadFile = false ∧ ev.isUnmarshalBinary = false ∧
      ev.isDialContext = false ∧ ev.isGetInfo = false := by
  have h : main w = ⟨startEvents w conf ++
      [Event.NewClientTLSFromFile conf.TLSPath "" (.error err),
       Event.Log ("could not read TLS cert: " ++ err), Event.Exit 1], 1⟩ := by
    cases hG : conf.EnableGrpcLog <;>
      simp [main, hParse, hCert, hG, Fatalf, Sprintf_cert, startEvents, mainCtx,
        enableGrpcLogger]
  rw [h]
  refine ⟨rfl, ⟨startEvents w conf, rfl⟩, ?_⟩
  rcases startEvents_cases w conf with hs | hs <;> rw [hs] <;>
    simp [Event.isReadFile, Event.isUnmarshalBinary, Event.isDialContext, Event.isGetInfo]

/-- Witness for C1: the world whose certificate file is missing. -/
theorem cert_error_stops_run_witness :
    (main worldNoCert).exitCode = 1 ∧
    [Event.NewClientTLSFromFile "./tls.cert" ""
        (.error "open ./tls.cert: no such file or directory"),
      Event.Log ("could not read TLS cert: " ++ "open ./tls.cert: no such file or directory"),
      Event.Exit 1] <:+ (main worldNoCert).trace ∧
    ∀ ev ∈ (main worldNoCert).trace, ev.isReadFile = false ∧ ev.isUnmarshalBinary = false ∧
      ev.isDialContext = false ∧ ev.isGetInfo = false :=
  cert_error_stops_run worldNoCert exampleConf
    "open ./tls.cert: no such file or directory" rfl rfl

/-- C2: when the certificate has loaded and the macaroon cannot be loaded,
either because `os.ReadFile` on the macaroon path returns an error or because
`mac.UnmarshalBinary` rejects the bytes read, the run exits with status 1 right
after the failing call, and no event of the run is a dial or a GetInfo call. -/
theorem macaroon_error_stops_run (w : World) (conf : config) (cert : TransportCredentials)
    (hParse : w.Parse w.args = .ok conf)
    (hCert : w.NewClientTLSFromFile conf.TLSPath "" = .ok cert) :
    (∀ err, w.ReadFile conf.MacaroonPath = .error err →
      (main w).exitCode = 1 ∧
      [Event.ReadFile conf.MacaroonPath (.error err),
        Event.Log ("could not read macaroon: " ++ err), Event.Exit 1] <:+ (main w).trace ∧
      ∀ ev ∈ (main w).trace, ev.isDialContext = false ∧ ev.isGetInfo = false) ∧
    (∀ macBytes err, w.ReadFile conf.MacaroonPath = .ok macBytes →
      w.UnmarshalBinary macBytes = .error err →
      (main w).exitCode = 1 ∧
      [Event.UnmarshalBinary macBytes (.error err),
        Event.Log ("could not read macaroon bytes into struct: " ++ err),
        Event.Exit 1] <:+ (main w).trace ∧
      ∀ ev ∈ (main w).trace, ev.isDialContext = false ∧ ev.isGetInfo = false) := by
  constructor
  · intro err hRead
    have h : main w = ⟨(startEvents w conf ++
        [Event.NewClientTLSFromFile conf.TLSPath "" (.ok cert)]) ++
        [Event.ReadFile conf.MacaroonPath (.error err),
         Event.Log ("could not read macaroon: " ++ err), Event.Exit 1], 1⟩ := by
      cases hG : conf.EnableGrpcLog <;>
        simp [main, hParse, hCert, hRead, hG, Fatalf, Sprintf_macaroon, startEvents,
          mainCtx, enableGrpcLogger]
    rw [h]
    refine ⟨rfl, ⟨_, rfl⟩, ?_⟩
    rcases startEvents_cases w conf with hs | hs <;> rw [hs] <;>
      simp [Event.isDialContext, Event.isGetInfo]
  · intro macBytes err hRead hUn
    have h : main w = ⟨(startEvents w conf ++
        [Event.NewClientTLSFromFile conf.TLSPath "" (.ok cert),
         Event.ReadFile conf.MacaroonPath (.ok macBytes)]) ++
        [Event.UnmarshalBinary macBytes (.error err),
         Event.Log ("could not read macaroon bytes into struct: " ++ err),
         Event.Exit 1], 1⟩ := by
      cases hG : conf.EnableGrpcLog <;>
        simp [main, hParse, hCert, hRead, hUn, hG, Fatalf, Sprintf_unmarshal, startEvents,
          mainCtx, enableGrpcLogger]
    rw [h]
    refine ⟨rfl, ⟨_, rfl⟩, ?_⟩
    rcases startEvents_cases w conf with hs | hs <;> rw [hs] <;>
      simp [Event.isDialContext, Event.isGetInfo]

/-- Witness for C2: a world whose macaroon file is missing, and a world whose
macaroon file holds three bytes that are not a macaroon. -/
theorem macaroon_error_stops_run_witness :
    ((main worldNoMacaroon).exitCode = 1 ∧
      [Event.ReadFile "./admin.macaroon"
          (.error "open ./admin.macaroon: no such file or directory"),
        Event.Log ("could not read macaroon: " ++
          "open ./admin.macaroon: no such file or directory"),
        Event.Exit 1] <:+ (main worldNoMacaroon).trace ∧
      ∀ ev ∈ (main worldNoMacaroon).trace,
        ev.isDialContext = false ∧ ev.isGetInfo = false) ∧
    ((main worldBadMacaroon).exitCode = 1 ∧
      [Event.UnmarshalBinary [1, 2, 3]
          (.error "cannot determine data format of binary-encoded macaroon"),
        Event.Log ("could not read macaroon bytes into struct: " ++
          "cannot determine data format of binary-encoded macaroon"),
        Event.Exit 1] <:+ (main worldBadMacaroon).trace ∧
      ∀ ev ∈ (main worldBadMacaroon).trace,
        ev.isDialContext = false ∧ ev.isGetInfo = false) :=
  ⟨(macaroon_error_stops_run worldNoMacaroon exampleConf ⟨1⟩ rfl rfl).1
      "open ./admin.macaroon: no such file or directory" rfl,
   (macaroon_error_stops_run worldBadMacaroon exampleConf ⟨1⟩ rfl rfl).2
      [1, 2, 3] "cannot determine data format of binary-encoded macaroon" rfl rfl⟩

/-- C3: every GetInfo call of a run is made on a connection that an earlier
`grpc.DialContext` of the run returned successfully, that dial coming after a
successful certificate load and a successful macaroon deserialization and
having among its options that certificate as transport credentials and that
macaroon as per-RPC credentials; and every dial of a run, successful or not,
comes after a successful flag parse, a successful load of the certificate at
the configured TLS path, a successful read of the configured macaroon path and
a successful deserialization of the bytes read, and has those two credentials
among its options. -/
theorem getInfo_only_on_credentialed_connection (w : World) :
    (∀ ctx conn res, Event.GetInfo ctx conn res ∈ (main w).trace →
      ∃ ctx0 target opts certFile cert macBytes mac,
        List.Sublist
          [Event.NewClientTLSFromFile certFile "" (.ok cert),
           Event.UnmarshalBinary macBytes (.ok mac),
           Event.DialContext ctx0 target opts (.ok conn),
           Event.GetInfo ctx conn res]
          (main w).trace ∧
        DialOption.WithTransportCredentials cert ∈ opts ∧
        DialOption.WithPerRPCCredentials { Macaroon := mac } ∈ opts) ∧
    (∀ ctx target opts res, Event.DialContext ctx target opts res ∈ (main w).trace →
      ∃ conf cert macBytes mac,
        List.Sublist
          [Event.Parse w.args (.ok conf),
           Event.NewClientTLSFromFile conf.TLSPath "" (.ok cert),
           Event.ReadFile conf.MacaroonPath (.ok macBytes),
           Event.UnmarshalBinary macBytes (.ok mac),
           Event.DialContext ctx target opts res] (main w).trace ∧
        DialOption.WithTransportCredentials cert ∈ opts ∧
        DialOption.WithPerRPCCredentials { Macaroon := mac } ∈ opts) := by
  rcases main_cases w with ⟨e, -, h⟩ | ⟨conf, e, -, -, h⟩ | ⟨conf, cert, e, -, -, -, h⟩ |
    ⟨conf, cert, macBytes, e, -, -, -, -, h⟩ |
    ⟨conf, cert, macBytes, mac, e, -, -, -, -, -, h⟩ |
    ⟨conf, cert, macBytes, mac, conn, e, -, -, -, -, -, -, h⟩ |
    ⟨conf, cert, macBytes, mac, conn, info, -, -, -, -, -, -, h⟩
  · rw [h]; simp
  · rw [h]
    rcases startEvents_cases w conf with hs | hs <;> rw [hs] <;> simp
  · rw [h]
    rcases startEvents_cases w conf with hs | hs <;> rw [hs] <;> simp
  · rw [h]
    rcases startEvents_cases w conf with hs | hs <;> rw [hs] <;> simp
  · rw [h]
    rcases startEvents_cases w conf with hs | hs <;> rw [hs] <;>
    · refine ⟨by simp, ?_⟩
      intro ctx target opts res hmem
      simp at hmem
      obtain ⟨rfl, rfl, rfl, rfl⟩ := hmem
      refine ⟨conf, cert, macBytes, mac, ?_, by simp [mainOpts], by simp [mainOpts]⟩
      repeat (first | exact List.nil_sublist _ | apply List.Sublist.cons₂ |
        apply List.Sublist.cons)
  all_goals
    rw [h]
    rcases startEvents_cases w conf with hs | hs <;> rw [hs] <;>
    · constructor
      · intro ctx conn0 res hmem
        simp at hmem
        obtain ⟨rfl, rfl, rfl⟩ := hmem
        refine ⟨mainCtx, conf.RpcServer, mainOpts cert mac, conf.TLSPath, cert, macBytes,
          mac, ?_, by simp [mainOpts], by simp [mainOpts]⟩
        repeat (first | exact List.nil_sublist _ | apply List.Sublist.cons₂ |
          apply List.Sublist.cons)
      · intro ctx target opts res hmem
        simp at hmem
        obtain ⟨rfl, rfl, rfl, rfl⟩ := hmem
        refine ⟨conf, cert, macBytes, mac, ?_, by simp [mainOpts], by simp [mainOpts]⟩
        repeat (first | exact List.nil_sublist _ | apply List.Sublist.cons₂ |
          apply List.Sublist.cons)

/-- Witness for C3: the world in which every step succeeds, at its GetInfo call
and at its dial. -/
theorem getInfo_only_on_credentialed_connection_witness :
    (∃ ctx0 target opts certFile cert macBytes mac,
      List.Sublist
        [Event.NewClientTLSFromFile certFile "" (.ok cert),
         Event.UnmarshalBinary macBytes (.ok mac),
         Event.DialContext ctx0 target opts (.ok ⟨3⟩),
         Event.GetInfo mainCtx ⟨3⟩ (.ok ⟨"version:\"0.15.0\""⟩)]
        (main worldOk).trace ∧
      DialOption.WithTransportCredentials cert ∈ opts ∧
      DialOption.WithPerRPCCredentials { Macaroon := mac } ∈ opts) ∧
    (∃ conf cert macBytes mac,
      List.Sublist
        [Event.Parse worldOk.args (.ok conf),
         Event.NewClientTLSFromFile conf.TLSPath "" (.ok cert),
         Event.ReadFile conf.MacaroonPath (.ok macBytes),
         Event.UnmarshalBinary macBytes (.ok mac),
         Event.DialContext mainCtx "localhost:10009" (mainOpts ⟨1⟩ ⟨7⟩) (.ok ⟨3⟩)]
        (main worldOk).trace ∧
      DialOption.WithTransportCredentials cert ∈ mainOpts ⟨1⟩ ⟨7⟩ ∧
      DialOption.WithPerRPCCredentials { Macaroon := mac } ∈ mainOpts ⟨1⟩ ⟨7⟩) :=
  ⟨(getInfo_only_on_credentialed_connection worldOk).1 mainCtx ⟨3⟩
      (.ok ⟨"version:\"0.15.0\""⟩) (by decide),
   (getInfo_only_on_credentialed_connection worldOk).2 mainCtx "localhost:10009"
      (mainOpts ⟨1⟩ ⟨7⟩) (.ok ⟨3⟩) (by decide)⟩

/-- C4: the exit status of a run is non-zero if and only if some call of the
run returned an error; wherever the trace is split at a call that returned an
error, nothing before it returned an error and what follows is exactly the
fatal log line and the exit with status 1, so no later step is performed; and
if no call returned an error, the run ends with the successful GetInfo call,
the log line holding its response, the deferred cancel and the exit with
status 0. -/
theorem exit_status_iff_step_error (w : World) :
    ((main w).exitCode ≠ 0 ↔ ∃ ev ∈ (main w).trace, ev.isError = true) ∧
    (∀ pre ev post, (main w).trace = pre ++ ev :: post → ev.isError = true →
      (∀ ev0 ∈ pre, ev0.isError = false) ∧ ev.isStep = true ∧
      (∃ msg, post = [Event.Log msg, Event.Exit 1]) ∧ (main w).exitCode = 1) ∧
    ((∀ ev ∈ (main w).trace, ev.isError = false) →
      (main w).exitCode = 0 ∧
      ∃ ctx conn info,
        [Event.GetInfo ctx conn (.ok info), Event.Log ("LND info: " ++ info.String),
          Event.cancel ctx, Event.Exit 0] <:+ (main w).trace) := by
  rcases main_shape w with ⟨A, x, s, e, h, hA, hx, hxe⟩ | ⟨A, conn, info, h, hA⟩
  · rw [h]
    have hxerr : x.isError = true := by simp [Event.isError, hxe]
    refine ⟨⟨fun _ => ⟨x, by simp, hxerr⟩, fun _ => by simp⟩, ?_, ?_⟩
    · intro pre ev post hsplit hev
      obtain ⟨h1, h2, h3⟩ := split_unique Event.isError x
        [Event.Log (s.description ++ e), Event.Exit 1]
        (by simp [Event.isError, Event.error]) A hA pre post ev hsplit hev
      subst h1 h2 h3
      exact ⟨hA, by simp [Event.isStep, hx], ⟨_, rfl⟩, rfl⟩
    · intro hall
      have hx0 := hall x (by simp)
      rw [hxerr] at hx0
      cases hx0
  · rw [h]
    have hL : ∀ ev ∈ A ++ [Event.GetInfo mainCtx conn (.ok info),
        Event.Log ("LND info: " ++ info.String), Event.cancel mainCtx, Event.Exit 0],
        ev.isError = false := by
      intro ev hev
      rcases List.mem_append.1 hev with h0 | h0
      · exact hA ev h0
      · simp at h0
        rcases h0 with h0 | h0 | h0 | h0 <;> subst h0 <;> rfl
    refine ⟨⟨fun hne => absurd rfl hne, ?_⟩, ?_, ?_⟩
    · rintro ⟨ev, hev, herr⟩
      rw [hL ev hev] at herr
      cases herr
    · intro pre ev post hsplit hev
      exact (no_split Event.isError _ hL pre post ev hsplit hev).elim
    · intro _
      exact ⟨rfl, mainCtx, conn, info, A, rfl⟩

/-- Witness for C4: a run that fails at the dial exits non-zero, and a run in
which no call returns an error exits with status 0 after logging the response. -/
theorem exit_status_iff_step_error_witness :
    (main worldRefused).exitCode ≠ 0 ∧
    ((main worldOk).exitCode = 0 ∧
      ∃ ctx conn info,
        [Event.GetInfo ctx conn (.ok info), Event.Log ("LND info: " ++ info.String),
          Event.cancel ctx, Event.Exit 0] <:+ (main worldOk).trace) :=
  ⟨(exit_status_iff_step_error worldRefused).1.2
      ⟨Event.DialContext mainCtx "localhost:10009" (mainOpts ⟨1⟩ ⟨7⟩)
        (.error "connection refused"), by decide, by decide⟩,
   (exit_status_iff_step_error worldOk).2.2 (by decide)⟩

/-- C5 as stated fails at flag parsing: when `flags.Parse` returns the error
"the required flag --server was not specified", the fatal message of the run is
that error text and nothing else, so it cannot hold a non-empty description of
the step next to the error text, on either side of it. -/
theorem parse_failure_message_is_bare_error :
    Event.Parse [] (.error "the required flag --server was not specified")
      ∈ (main worldNoServer).trace ∧
    fatalMessage (main worldNoServer) = some "the required flag --server was not specified" ∧
    ¬ ∃ desc a b c : String, desc ≠ "" ∧
      (fatalMessage (main worldNoServer)
          = some (a ++ desc ++ b ++ "the required flag --server was not specified" ++ c) ∨
       fatalMessage (main worldNoServer)
          = some (a ++ "the required flag --server was not specified" ++ b ++ desc ++ c)) := by
  have hf : fatalMessage (main worldNoServer)
      = some "the required flag --server was not specified" := by decide
  refine ⟨by decide, hf, ?_⟩
  rintro ⟨desc, a, b, c, hne, h | h⟩
  · rw [hf] at h
    have hl := congrArg String.length (Option.some.inj h)
    simp only [String.length_append] at hl
    exact hne (eq_empty_of_length_zero desc (by omega))
  · rw [hf] at h
    have hl := congrArg String.length (Option.some.inj h)
    simp only [String.length_append] at hl
    exact hne (eq_empty_of_length_zero desc (by omega))

/-- C5, amended: whichever call of a run returns an error, the run ends right
after it with the fatal message made of the format text of that step followed
by the text of the error.  For the five steps after flag parsing the format
text is non-empty, and messages built from the format texts of two different
steps among these five are never equal, so the message identifies the step.
For flag parsing the format text is empty: the fatal message is the error text
alone. -/
theorem fatal_message_is_description_then_error (w : World) :
    (∀ ev s e, ev ∈ (main w).trace → ev.step = some s → ev.error = some e →
      [ev, Event.Log (s.description ++ e), Event.Exit 1] <:+ (main w).trace ∧
      fatalMessage (main w) = some (s.description ++ e)) ∧
    (∀ s, s ≠ Step.Parse → s.description ≠ "") ∧
    (∀ s s0 e e0, s ≠ Step.Parse → s0 ≠ Step.Parse →
      s.description ++ e = s0.description ++ e0 → s = s0) ∧
    (∀ e, Step.Parse.description ++ e = e) := by
  refine ⟨?_, ?_, ?_, ?_⟩
  · intro ev s e hmem hs he
    have hev : ev.isError = true := by simp [Event.isError, he]
    rcases main_shape w with ⟨A, x, s0, e0, h, hA, hx, hxe⟩ | ⟨A, conn, info, h, hA⟩
    · rw [h] at hmem ⊢
      obtain ⟨pre, post, hsplit⟩ := List.append_of_mem hmem
      obtain ⟨h1, h2, h3⟩ := split_unique Event.isError x
        [Event.Log (s0.description ++ e0), Event.Exit 1]
        (by simp [Event.isError, Event.error]) A hA pre post ev hsplit hev
      subst h2
      rw [hs] at hx
      rw [he] at hxe
      cases hx
      cases hxe
      exact ⟨⟨A, rfl⟩, by simp [fatalMessage]⟩
    · rw [h] at hmem
      rcases List.mem_append.1 hmem with h0 | h0
      · rw [hA ev h0] at hev; cases hev
      · simp at h0
        rcases h0 with h0 | h0 | h0 | h0 <;> subst h0 <;> cases hev
  · intro s hs
    cases s <;> first | exact absurd rfl hs | decide
  · intro s s0 e e0 hs hs0 h
    have hd := congrArg String.data h
    cases s <;> cases s0 <;>
      first
      | rfl
      | exact absurd rfl hs
      | exact absurd rfl hs0
      | (exfalso; simp [Step.description] at hd)
  · intro e
    apply String.ext
    simp [Step.description]

/-- Witness for C5: the run in which the server refuses the connection. -/
theorem fatal_message_is_description_then_error_witness :
    [Event.DialContext mainCtx "localhost:10009" (mainOpts ⟨1⟩ ⟨7⟩)
        (.error "connection refused"),
      Event.Log (Step.DialContext.description ++ "connection refused"),
      Event.Exit 1] <:+ (main worldRefused).trace ∧
    fatalMessage (main worldRefused)
      = some (Step.DialContext.description ++ "connection refused") :=
  (fatal_message_is_description_then_error worldRefused).1
    (Event.DialContext mainCtx "localhost:10009" (mainOpts ⟨1⟩ ⟨7⟩)
      (.error "connection refused"))
    Step.DialContext "connection refused" (by decide) rfl rfl

/-- C6 as stated fails: with a valid certificate and a macaroon file of the
three bytes 1, 2, 3 at `./admin.macaroon`, rejected by `mac.UnmarshalBinary`, the
fatal message is the format text followed by the text of that error, and
neither it nor any other line the run logs contains the macaroon path. -/
theorem unmarshal_failure_message_lacks_path :
    worldBadMacaroon.ReadFile exampleConf.MacaroonPath = .ok [1, 2, 3] ∧
    fatalMessage (main worldBadMacaroon) = some
      "could not read macaroon bytes into struct: cannot determine data format of binary-encoded macaroon" ∧
    ∀ msg ∈ logLines (main worldBadMacaroon),
      ¬ (exampleConf.MacaroonPath.data <:+: msg.data) := by
  set_option maxRecDepth 100000 in decide

/-- C6, amended: when the certificate is valid and the macaroon file is read
but `mac.UnmarshalBinary` rejects its bytes with error `err`, the fatal message
is "could not read macaroon bytes into struct: " followed by `err` (the lines
the run logs are the start-up line and that message, so `main` puts the
macaroon path into none of them), the exit status is 1, and no event of the run
is a dial. -/
theorem unmarshal_failure_message (w : World) (conf : config) (cert : TransportCredentials)
    (macBytes : List Nat) (err : String)
    (hParse : w.Parse w.args = .ok conf)
    (hCert : w.NewClientTLSFromFile conf.TLSPath "" = .ok cert)
    (hRead : w.ReadFile conf.MacaroonPath = .ok macBytes)
    (hUn : w.UnmarshalBinary macBytes = .error err) :
    fatalMessage (main w) = some ("could not read macaroon bytes into struct: " ++ err) ∧
    logLines (main w) =
      ["lnd-example: starting", "could not read macaroon bytes into struct: " ++ err] ∧
    (main w).exitCode = 1 ∧
    ∀ ev ∈ (main w).trace, ev.isDialContext = false := by
  have h : main w = ⟨startEvents w conf ++
      [Event.NewClientTLSFromFile conf.TLSPath "" (.ok cert),
       Event.ReadFile conf.MacaroonPath (.ok macBytes),
       Event.UnmarshalBinary macBytes (.error err),
       Event.Log ("could not read macaroon bytes into struct: " ++ err),
       Event.Exit 1], 1⟩ := by
    cases hG : conf.EnableGrpcLog <;>
      simp [main, hParse, hCert, hRead, hUn, hG, Fatalf, Sprintf_unmarshal, startEvents,
        mainCtx, enableGrpcLogger]
  rw [h]
  rcases startEvents_cases w conf with hs | hs <;> rw [hs] <;>
    simp [fatalMessage, logLines, Event.isDialContext]

/-- Witness for C6: the world whose macaroon file holds the bytes 1, 2, 3. -/
theorem unmarshal_failure_message_witness :
    fatalMessage (main worldBadMacaroon) = some ("could not read macaroon bytes into struct: "
      ++ "cannot determine data format of binary-encoded macaroon") ∧
    logLines (main worldBadMacaroon) =
      ["lnd-example: starting", "could not read macaroon bytes into struct: "
        ++ "cannot determine data format of binary-encoded macaroon"] ∧
    (main worldBadMacaroon).exitCode = 1 ∧
    ∀ ev ∈ (main worldBadMacaroon).trace, ev.isDialContext = false :=
  unmarshal_failure_message worldBadMacaroon exampleConf ⟨1⟩ [1, 2, 3]
    "cannot determine data format of binary-encoded macaroon" rfl rfl rfl rfl

/-- C7: every run starts with the start-up log line followed by the creation
of a context with a timeout of 10 000 000 000 ns (10 s) on the background
context; no later event creates a context, so that one is the only context
created and it precedes flag parsing and credential loading; and every dial and
every GetInfo call of the run is given that context, which has a deadline. -/
theorem single_timeout_context (w : World) :
    (∃ rest, (main w).trace =
        Event.Log "lnd-example: starting" ::
        Event.WithTimeout (Context.WithTimeout Context.Background 10000000000) :: rest ∧
      ∀ ev ∈ rest, ev.isWithTimeout = false) ∧
    acquiredContexts (main w).trace = [Context.WithTimeout Context.Background 10000000000] ∧
    (∀ ev ∈ (main w).trace, ∀ ctx, ev.networkContext = some ctx →
      ctx = Context.WithTimeout Context.Background 10000000000 ∧ ctx.hasDeadline = true) := by
  rcases main_cases w with ⟨e, hP, h⟩ | ⟨conf, e, hP, -, h⟩ | ⟨conf, cert, e, hP, -, -, h⟩ |
    ⟨conf, cert, macBytes, e, hP, -, -, -, h⟩ |
    ⟨conf, cert, macBytes, mac, e, hP, -, -, -, -, h⟩ |
    ⟨conf, cert, macBytes, mac, conn, e, hP, -, -, -, -, -, h⟩ |
    ⟨conf, cert, macBytes, mac, conn, info, hP, -, -, -, -, -, h⟩
  · rw [h]
    simp [mainCtx, Second, Event.isWithTimeout, acquiredContexts, Event.networkContext,
      Context.hasDeadline]
  all_goals
    rw [h]
    rcases startEvents_cases w conf with hs | hs <;> rw [hs] <;>
      simp [mainCtx, Second, Event.isWithTimeout, acquiredContexts, Event.networkContext,
        Context.hasDeadline]

/-- Witness for C7: the GetInfo call of the run in which every step succeeds. -/
theorem single_timeout_context_witness :
    Context.WithTimeout Context.Background (Second * 10)
        = Context.WithTimeout Context.Background 10000000000 ∧
      (Context.WithTimeout Context.Background (Second * 10)).hasDeadline = true :=
  (single_timeout_context worldOk).2.2
    (Event.GetInfo mainCtx ⟨3⟩ (.ok ⟨"version:\"0.15.0\""⟩)) (by decide)
    (Context.WithTimeout Context.Background (Second * 10)) rfl

/-- C8: every dial of a run has among its options `WithBlock`,
`FailOnNonTempDialError(true)` (and no `FailOnNonTempDialError` with another
value) and `WithReturnConnectionError`; a run dials at most once; and when the
dial returns an error the run ends right after it with the fatal message
"could not dial to LND: " followed by the error text, without dialing again. -/
theorem dial_blocks_and_fails_fast (w : World) :
    (∀ ctx target opts res, Event.DialContext ctx target opts res ∈ (main w).trace →
      DialOption.WithBlock ∈ opts ∧
      DialOption.FailOnNonTempDialError true ∈ opts ∧
      DialOption.FailOnNonTempDialError false ∉ opts ∧
      DialOption.WithReturnConnectionError ∈ opts ∧
      ∀ err, res = .error err →
        [Event.DialContext ctx target opts (.error err),
          Event.Log ("could not dial to LND: " ++ err), Event.Exit 1] <:+ (main w).trace) ∧
    (main w).trace.countP Event.isDialContext ≤ 1 := by
  rcases main_cases w with ⟨e, hP, h⟩ | ⟨conf, e, hP, -, h⟩ | ⟨conf, cert, e, hP, -, -, h⟩ |
    ⟨conf, cert, macBytes, e, hP, -, -, -, h⟩ |
    ⟨conf, cert, macBytes, mac, e, hP, -, -, -, -, h⟩ |
    ⟨conf, cert, macBytes, mac, conn, e, hP, -, -, -, -, -, h⟩ |
    ⟨conf, cert, macBytes, mac, conn, info, hP, -, -, -, -, -, h⟩
  · rw [h]
    simp [Event.isDialContext]
  · rw [h]
    rcases startEvents_cases w conf with hs | hs <;> rw [hs] <;> simp [Event.isDialContext]
  · rw [h]
    rcases startEvents_cases w conf with hs | hs <;> rw [hs] <;> simp [Event.isDialContext]
  · rw [h]
    rcases startEvents_cases w conf with hs | hs <;> rw [hs] <;> simp [Event.isDialContext]
  · rw [h]
    constructor
    · intro ctx target opts res hmem
      have hmem0 : Event.DialContext ctx target opts res =
          Event.DialContext mainCtx conf.RpcServer (mainOpts cert mac) (.error e) := by
        rcases startEvents_cases w conf with hs | hs <;> rw [hs] at hmem <;> simpa using hmem
      cases hmem0
      refine ⟨by simp [mainOpts], by simp [mainOpts], by simp [mainOpts], by simp [mainOpts], ?_⟩
      intro err herr
      cases herr
      exact ⟨startEvents w conf ++ [Event.NewClientTLSFromFile conf.TLSPath "" (.ok cert),
        Event.ReadFile conf.MacaroonPath (.ok macBytes),
        Event.UnmarshalBinary macBytes (.ok mac)], by simp⟩
    · rcases startEvents_cases w conf with hs | hs <;> rw [hs] <;> simp [Event.isDialContext]
  · rw [h]
    constructor
    · intro ctx target opts res hmem
      have hmem0 : Event.DialContext ctx target opts res =
          Event.DialContext mainCtx conf.RpcServer (mainOpts cert mac) (.ok conn) := by
        rcases startEvents_cases w conf with hs | hs <;> rw [hs] at hmem <;> simpa using hmem
      cases hmem0
      refine ⟨by simp [mainOpts], by simp [mainOpts], by simp [mainOpts], by simp [mainOpts], ?_⟩
      intro err herr
      cases herr
    · rcases startEvents_cases w conf with hs | hs <;> rw [hs] <;> simp [Event.isDialContext]
  · rw [h]
    constructor
    · intro ctx target opts res hmem
      have hmem0 : Event.DialContext ctx target opts res =
          Event.DialContext mainCtx conf.RpcServer (mainOpts cert mac) (.ok conn) := by
        rcases startEvents_cases w conf with hs | hs <;> rw [hs] at hmem <;> simpa using hmem
      cases hmem0
      refine ⟨by simp [mainOpts], by simp [mainOpts], by simp [mainOpts], by simp [mainOpts], ?_⟩
      intro err herr
      cases herr
    · rcases startEvents_cases w conf with hs | hs <;> rw [hs] <;> simp [Event.isDialContext]

/-- Witness for C8: the dial of the run in which the server refuses the
connection. -/
theorem dial_blocks_and_fails_fast_witness :
    DialOption.WithBlock ∈ mainOpts ⟨1⟩ ⟨7⟩ ∧
    DialOption.FailOnNonTempDialError true ∈ mainOpts ⟨1⟩ ⟨7⟩ ∧
    DialOption.FailOnNonTempDialError false ∉ mainOpts ⟨1⟩ ⟨7⟩ ∧
    DialOption.WithReturnConnectionError ∈ mainOpts ⟨1⟩ ⟨7⟩ ∧
    ∀ err, (Except.error "connection refused" : Except String ClientConn) = .error err →
      [Event.DialContext mainCtx "localhost:10009" (mainOpts ⟨1⟩ ⟨7⟩) (.error err),
        Event.Log ("could not dial to LND: " ++ err), Event.Exit 1]
        <:+ (main worldRefused).trace :=
  (dial_blocks_and_fails_fast worldRefused).1 mainCtx "localhost:10009" (mainOpts ⟨1⟩ ⟨7⟩)
    (.error "connection refused") (by decide)

/-- C9: in every run the certificate is read at most once and `os.ReadFile` is
called at most once, so at most two files are read; a certificate read is on the
configured TLS path and an `os.ReadFile` is on the configured macaroon path;
there is at most one dial and at most one GetInfo call, and no file is written.
A run that exits with status 0 has read exactly two files (the certificate once,
the macaroon once), dialed exactly once and called GetInfo exactly once. -/
theorem effects_bounded (w : World) :
    (main w).trace.countP Event.isCertRead ≤ 1 ∧
    (main w).trace.countP Event.isReadFile ≤ 1 ∧
    (main w).trace.countP Event.isFileRead ≤ 2 ∧
    (∀ certFile o res, Event.NewClientTLSFromFile certFile o res ∈ (main w).trace →
      ∃ conf, w.Parse w.args = .ok conf ∧ certFile = conf.TLSPath) ∧
    (∀ name res, Event.ReadFile name res ∈ (main w).trace →
      ∃ conf, w.Parse w.args = .ok conf ∧ name = conf.MacaroonPath) ∧
    (main w).trace.countP Event.isDialContext ≤ 1 ∧
    (main w).trace.countP Event.isGetInfo ≤ 1 ∧
    (main w).trace.countP Event.isWriteFile = 0 ∧
    ((main w).exitCode = 0 →
      (main w).trace.countP Event.isFileRead = 2 ∧
      (main w).trace.countP Event.isCertRead = 1 ∧
      (main w).trace.countP Event.isReadFile = 1 ∧
      (main w).trace.countP Event.isDialContext = 1 ∧
      (main w).trace.countP Event.isGetInfo = 1) := by
  rcases main_cases w with ⟨e, hP, h⟩ | ⟨conf, e, hP, -, h⟩ | ⟨conf, cert, e, hP, -, -, h⟩ |
    ⟨conf, cert, macBytes, e, hP, -, -, -, h⟩ |
    ⟨conf, cert, macBytes, mac, e, hP, -, -, -, -, h⟩ |
    ⟨conf, cert, macBytes, mac, conn, e, hP, -, -, -, -, -, h⟩ |
    ⟨conf, cert, macBytes, mac, conn, info, hP, -, -, -, -, -, h⟩
  · rw [h]
    simp [Event.isCertRead, Event.isReadFile, Event.isFileRead, Event.isDialContext,
      Event.isGetInfo, Event.isWriteFile]
  all_goals
    rw [h]
    rcases startEvents_cases w conf with hs | hs <;> rw [hs] <;>
      simp [Event.isCertRead, Event.isReadFile, Event.isFileRead, Event.isDialContext,
        Event.isGetInfo, Event.isWriteFile, hP] <;>
      exact fun _ _ _ hc _ _ => hc

/-- Witness for C9: the run in which every step succeeds. -/
theorem effects_bounded_witness :
    (main worldOk).trace.countP Event.isFileRead = 2 ∧
    (main worldOk).trace.countP Event.isCertRead = 1 ∧
    (main worldOk).trace.countP Event.isReadFile = 1 ∧
    (main worldOk).trace.countP Event.isDialContext = 1 ∧
    (main worldOk).trace.countP Event.isGetInfo = 1 :=
  (effects_bounded worldOk).2.2.2.2.2.2.2.2 rfl

/-- C10 as stated fails: in the run in which every step succeeds, the
connection returned by `grpc.DialContext` is acquired and the trace up to the
exit with status 0 holds no `Close` of it. -/
theorem connection_never_closed :
    (main worldOk).exitCode = 0 ∧
    acquiredConns (main worldOk).trace = [⟨3⟩] ∧
    closedConns (main worldOk).trace = [] ∧
    allReleased (main worldOk).trace = false := by
  decide

/-- C10, amended: on the exit path on which every step succeeds, the deferred
cancel of the timeout context is the last action before the exit with status
0, and that context is the only one created; and on no path does `main` close
the connection returned by `grpc.DialContext`. -/
theorem cancel_on_return_and_no_close (w : World) :
    closedConns (main w).trace = [] ∧
    (∀ ev ∈ (main w).trace, ev.isClose = false) ∧
    ((main w).exitCode = 0 →
      [Event.cancel (Context.WithTimeout Context.Background 10000000000), Event.Exit 0]
        <:+ (main w).trace ∧
      acquiredContexts (main w).trace = [Context.WithTimeout Context.Background 10000000000] ∧
      cancelledContexts (main w).trace
        = [Context.WithTimeout Context.Background 10000000000]) := by
  rcases main_cases w with ⟨e, hP, h⟩ | ⟨conf, e, hP, -, h⟩ | ⟨conf, cert, e, hP, -, -, h⟩ |
    ⟨conf, cert, macBytes, e, hP, -, -, -, h⟩ |
    ⟨conf, cert, macBytes, mac, e, hP, -, -, -, -, h⟩ |
    ⟨conf, cert, macBytes, mac, conn, e, hP, -, -, -, -, -, h⟩ |
    ⟨conf, cert, macBytes, mac, conn, info, hP, -, -, -, -, -, h⟩
  · rw [h]
    simp [closedConns, Event.isClose]
  · rw [h]
    rcases startEvents_cases w conf with hs | hs <;> rw [hs] <;>
      simp [closedConns, Event.isClose]
  · rw [h]
    rcases startEvents_cases w conf with hs | hs <;> rw [hs] <;>
      simp [closedConns, Event.isClose]
  · rw [h]
    rcases startEvents_cases w conf with hs | hs <;> rw [hs] <;>
      simp [closedConns, Event.isClose]
  · rw [h]
    rcases startEvents_cases w conf with hs | hs <;> rw [hs] <;>
      simp [closedConns, Event.isClose]
  · rw [h]
    rcases startEvents_cases w conf with hs | hs <;> rw [hs] <;>
      simp [closedConns, Event.isClose]
  · rw [h]
    refine ⟨?_, ?_, fun _ => ⟨⟨startEvents w conf ++
        [Event.NewClientTLSFromFile conf.TLSPath "" (.ok cert),
         Event.ReadFile conf.MacaroonPath (.ok macBytes),
         Event.UnmarshalBinary macBytes (.ok mac),
         Event.DialContext mainCtx conf.RpcServer (mainOpts cert mac) (.ok conn),
         Event.Log ("dialed to LND\tduration=" ++ w.Since),
         Event.NewLightningClient conn,
         Event.GetInfo mainCtx conn (.ok info),
         Event.Log ("LND info: " ++ info.String)], by simp [mainCtx, Second]⟩, ?_, ?_⟩⟩
    all_goals
      rcases startEvents_cases w conf with hs | hs <;> rw [hs] <;>
        simp [closedConns, Event.isClose, acquiredContexts, cancelledContexts, mainCtx, Second]

/-- Witness for C10, amended: the run in which every step succeeds. -/
theorem cancel_on_return_and_no_close_witness :
    [Event.cancel (Context.WithTimeout Context.Background 10000000000), Event.Exit 0]
      <:+ (main worldOk).trace ∧
    acquiredContexts (main worldOk).trace
      = [Context.WithTimeout Context.Background 10000000000] ∧
    cancelledContexts (main worldOk).trace
      = [Context.WithTimeout Context.Background 10000000000] :=
  (cancel_on_return_and_no_close worldOk).2.2 rfl

end LndExample
